import Mathlib

/-!
Shallow embedding of `src/main/xiaozhi-server/examples/esp32_robot_control.cpp`,
the ESP32 robot motion-control example of the xiaozhi-esp32-server repository.

Modelling conventions:
* `unsigned long` millisecond timestamps are `Nat` (the 32-bit wraparound at
  49.7 days is out of scope: every theorem about elapsed time assumes the
  monotonic in-range regime `moveStartTime ≤ now`, matching the source's use
  of `millis()`); unsigned subtraction `millis() - moveStartTime` is `Nat`
  truncated subtraction, which agrees with C in that regime.
* C `int` is `Int`; C integer division truncates toward zero, so the Arduino
  `map` helper uses `Int.tdiv`.
* The C `float duration` (seconds) is modelled as `ℚ` with exact arithmetic;
  the conversion `(unsigned long)(duration * 1000)` truncates toward zero,
  i.e. `Int.toNat ⌊duration * 1000⌋` for the non-negative durations the
  protocol carries (for negative values the C conversion is undefined
  behaviour; the model yields 0 there).
* GPIO/PWM driver calls (`digitalWrite`, `ledcWrite`) are recorded as a list
  of `Actuation` events emitted by each operation, so "no actuation" is
  "empty event list".
* The busy-wait `while (robotStatus.isMoving) { checkRobotMovement(); delay(10); }`
  inside sequence execution is modelled with explicit fuel: `waitLoop fuel`
  returns `none` when the loop has not exited after `fuel` iterations, and
  the loop polls at times `now, now + 10, now + 20, …` (each iteration's
  `delay(10)` advances the clock by 10 ms). "The loop never terminates" is
  expressed as "the result is `none` for every fuel".
-/

/-- The four motor direction GPIO pins of the source file. -/
inductive Pin where
  | motorLeftForward
  | motorLeftBackward
  | motorRightForward
  | motorRightBackward
deriving Repr, DecidableEq

/-- One low-level actuation event: a `digitalWrite` on a direction pin or a
`ledcWrite` of a PWM duty cycle on a channel. -/
inductive Actuation where
  | digitalWrite (pin : Pin) (high : Bool)
  | ledcWrite (channel : Nat) (duty : Int)
deriving Repr, DecidableEq

/-- `struct RobotStatus` of the source, field for field. -/
structure RobotStatus where
  isMoving : Bool
  currentDirection : String
  currentSpeed : Int
  moveStartTime : Nat
  moveDuration : Nat
deriving Repr, DecidableEq

/-- The global `robotStatus` as initialized by the member initializers of
`struct RobotStatus`. -/
def initialStatus : RobotStatus :=
  { isMoving := false, currentDirection := "stop", currentSpeed := 0,
    moveStartTime := 0, moveDuration := 0 }

/-- Arduino core `map(x, in_min, in_max, out_min, out_max)`:
`(x - in_min) * (out_max - out_min) / (in_max - in_min) + out_min` with C
`long` division (truncation toward zero, hence `Int.tdiv`). -/
def map (x inMin inMax outMin outMax : Int) : Int :=
  Int.tdiv ((x - inMin) * (outMax - outMin)) (inMax - inMin) + outMin

/-- Arduino core `constrain(amt, low, high)`. -/
def constrain (amt low high : Int) : Int :=
  if amt < low then low else if amt > high then high else amt

/-- `getBatteryLevel()`: maps a raw ADC reading (passed explicitly here, the
source reads `analogRead(A0)`) from [0,4095] to [0,100] and constrains. -/
def getBatteryLevel (adcValue : Int) : Int :=
  constrain (map adcValue 0 4095 0 100) 0 100

/-- The actuation events issued by `stopRobot()`: all four direction pins
LOW and both PWM channels at duty 0. -/
def stopActs : List Actuation :=
  [Actuation.digitalWrite Pin.motorLeftForward false,
   Actuation.digitalWrite Pin.motorLeftBackward false,
   Actuation.digitalWrite Pin.motorRightForward false,
   Actuation.digitalWrite Pin.motorRightBackward false,
   Actuation.ledcWrite 0 0,
   Actuation.ledcWrite 1 0]

/-- `stopRobot()`: neutral pins, zero duty, and
`isMoving = false, currentDirection = "stop", currentSpeed = 0`. -/
def stopRobot (s : RobotStatus) : RobotStatus × List Actuation :=
  ({ s with isMoving := false, currentDirection := "stop", currentSpeed := 0 },
   stopActs)

/-- `moveForward(speed)`: forward pins on both sides, PWM duty
`map(speed, 0, 100, 0, 255)` on both channels, updates direction/speed. -/
def moveForward (speed : Int) (s : RobotStatus) : RobotStatus × List Actuation :=
  let pwmValue := map speed 0 100 0 255
  ({ s with currentDirection := "forward", currentSpeed := speed },
   [Actuation.digitalWrite Pin.motorLeftForward true,
    Actuation.digitalWrite Pin.motorLeftBackward false,
    Actuation.digitalWrite Pin.motorRightForward true,
    Actuation.digitalWrite Pin.motorRightBackward false,
    Actuation.ledcWrite 0 pwmValue,
    Actuation.ledcWrite 1 pwmValue])

/-- `moveBackward(speed)`. -/
def moveBackward (speed : Int) (s : RobotStatus) : RobotStatus × List Actuation :=
  let pwmValue := map speed 0 100 0 255
  ({ s with currentDirection := "backward", currentSpeed := speed },
   [Actuation.digitalWrite Pin.motorLeftForward false,
    Actuation.digitalWrite Pin.motorLeftBackward true,
    Actuation.digitalWrite Pin.motorRightForward false,
    Actuation.digitalWrite Pin.motorRightBackward true,
    Actuation.ledcWrite 0 pwmValue,
    Actuation.ledcWrite 1 pwmValue])

/-- `turnLeft(speed)`. -/
def turnLeft (speed : Int) (s : RobotStatus) : RobotStatus × List Actuation :=
  let pwmValue := map speed 0 100 0 255
  ({ s with currentDirection := "left", currentSpeed := speed },
   [Actuation.digitalWrite Pin.motorLeftForward false,
    Actuation.digitalWrite Pin.motorLeftBackward true,
    Actuation.digitalWrite Pin.motorRightForward true,
    Actuation.digitalWrite Pin.motorRightBackward false,
    Actuation.ledcWrite 0 pwmValue,
    Actuation.ledcWrite 1 pwmValue])

/-- `turnRight(speed)`. -/
def turnRight (speed : Int) (s : RobotStatus) : RobotStatus × List Actuation :=
  let pwmValue := map speed 0 100 0 255
  ({ s with currentDirection := "right", currentSpeed := speed },
   [Actuation.digitalWrite Pin.motorLeftForward true,
    Actuation.digitalWrite Pin.motorLeftBackward false,
    Actuation.digitalWrite Pin.motorRightForward false,
    Actuation.digitalWrite Pin.motorRightBackward true,
    Actuation.ledcWrite 0 pwmValue,
    Actuation.ledcWrite 1 pwmValue])

/-- The conversion `robotStatus.moveDuration = duration * 1000` from float
seconds to `unsigned long` milliseconds (truncation toward zero for the
non-negative values the protocol carries). -/
def durationToMillis (duration : ℚ) : Nat :=
  (⌊duration * 1000⌋).toNat

/-- `executeRobotMove(direction, duration, speed)`, with the call's
`millis()` reading passed as `now`. It first sets
`isMoving = true, moveStartTime = now, moveDuration = duration * 1000`, then
dispatches on the direction string; `"stop"` calls `stopRobot()` and returns;
an unrecognized direction matches no branch (no actuation). -/
def executeRobotMove (direction : String) (duration : ℚ) (speed : Int)
    (now : Nat) (s : RobotStatus) : RobotStatus × List Actuation :=
  let s1 := { s with isMoving := true, moveStartTime := now,
                     moveDuration := durationToMillis duration }
  if direction = "forward" then moveForward speed s1
  else if direction = "backward" then moveBackward speed s1
  else if direction = "left" then turnLeft speed s1
  else if direction = "right" then turnRight speed s1
  else if direction = "stop" then stopRobot s1
  else (s1, [])

/-- `checkRobotMovement()` (the poll), with the `millis()` reading passed as
`now`: if moving with a positive armed duration and
`elapsed = now - moveStartTime` has reached it, calls `stopRobot()`. -/
def checkRobotMovement (now : Nat) (s : RobotStatus) : RobotStatus × List Actuation :=
  if s.isMoving ∧ 0 < s.moveDuration then
    if s.moveDuration ≤ now - s.moveStartTime then stopRobot s
    else (s, [])
  else (s, [])

/-- A run of polls at the given sequence of `millis()` readings, keeping only
the state (used to express "no later poll can change the state"). -/
def pollMany (times : List Nat) (s : RobotStatus) : RobotStatus :=
  times.foldl (fun st t => (checkRobotMovement t st).1) s

/-- One step of a sequence command: a direction and a duration in seconds. -/
structure MotionStep where
  direction : String
  duration : ℚ
deriving Repr, DecidableEq

/-- The busy-wait `while (robotStatus.isMoving) { checkRobotMovement(); delay(10); }`
with explicit fuel. Polls at `now`, then `now + 10`, and so on; returns the
final state, the actuations emitted by the polls, and the exit time, or
`none` when `fuel` iterations did not exit the loop. -/
def waitLoop : Nat → Nat → RobotStatus → Option (RobotStatus × List Actuation × Nat)
  | 0, now, s => if s.isMoving then none else some (s, [], now)
  | fuel + 1, now, s =>
    if s.isMoving then
      let r := checkRobotMovement now s
      match waitLoop fuel (now + 10) r.1 with
      | none => none
      | some (s2, a2, t2) => some (s2, r.2 ++ a2, t2)
    else some (s, [], now)

/-- The `action == "sequence"` loop body of `handleRobotControlMessage`:
for each step, `executeRobotMove(step.direction, step.duration, speed)`,
busy-wait until `isMoving` is false, then `delay(100)` before the next step.
Returns `none` when some busy-wait exceeds the fuel (in particular when it
can never exit). -/
def execSequence (fuel : Nat) (speed : Int) :
    List MotionStep → Nat → RobotStatus → Option (RobotStatus × List Actuation × Nat)
  | [], now, s => some (s, [], now)
  | step :: rest, now, s =>
    let r1 := executeRobotMove step.direction step.duration speed now s
    match waitLoop fuel now r1.1 with
    | none => none
    | some (s2, a2, t2) =>
      match execSequence fuel speed rest (t2 + 100) s2 with
      | none => none
      | some (s3, a3, t3) => some (s3, r1.2 ++ a2 ++ a3, t3)

/-- An element of the JSON `sequence` array as the handler reads it:
either field may be absent. -/
structure JsonStep where
  direction : Option String
  duration : Option ℚ
deriving Repr, DecidableEq

/-- The JSON `command` object as the handler reads it: every field may be
absent. -/
structure JsonCommand where
  action : Option String
  direction : Option String
  duration : Option ℚ
  speed : Option Int
  sequence : Option (List JsonStep)
deriving Repr, DecidableEq

/-- The decoded inbound document: `containsKey("command")` is modelled by the
option being `some`. -/
structure JsonDoc where
  command : Option JsonCommand
deriving Repr, DecidableEq

/-- ArduinoJson `variant.as<String>()`: the stored string when present; a
missing key yields a null variant, which stringifies to `"null"` (no
recognized keyword compares equal to it, so dispatch is insensitive to the
exact text). -/
def asString (o : Option String) : String :=
  match o with
  | some str => str
  | none => "null"

/-- The outbound `robot_status` reply built by the `get_status` branch. -/
structure StatusMsg where
  isMoving : Bool
  direction : String
  speed : Int
  battery : Int
deriving Repr, DecidableEq

/-- `handleRobotControlMessage(doc)`: rejects a document without a `command`
key; otherwise dispatches on `command["action"]` to the move, sequence or
status branch (an unrecognized action matches no branch). ArduinoJson
defaults for missing fields: `as<float>()` and `as<int>()` of a null variant
are 0, a missing `sequence` array iterates zero times. `now` is the
`millis()` reading, `adcValue` the battery ADC sample, `fuel` bounds the
sequence busy-waits. Returns the state, the actuations and the sent replies,
or `none` when a sequence busy-wait diverges. -/
def handleRobotControlMessage (fuel : Nat) (now : Nat) (adcValue : Int)
    (doc : JsonDoc) (s : RobotStatus) :
    Option (RobotStatus × List Actuation × List StatusMsg) :=
  match doc.command with
  | none => some (s, [], [])
  | some command =>
    let action := asString command.action
    if action = "move" then
      let direction := asString command.direction
      let duration := command.duration.getD 0
      let speed := command.speed.getD 0
      let r := executeRobotMove direction duration speed now s
      some (r.1, r.2, [])
    else if action = "sequence" then
      let steps := (command.sequence.getD []).map
        (fun st => MotionStep.mk (asString st.direction) (st.duration.getD 0))
      let speed := command.speed.getD 0
      match execSequence fuel speed steps now s with
      | none => none
      | some (s2, a2, _) => some (s2, a2, [])
    else if action = "get_status" then
      some (s, [],
        [{ isMoving := s.isMoving, direction := s.currentDirection,
           speed := s.currentSpeed, battery := getBatteryLevel adcValue }])
    else some (s, [], [])

/-- The invariant of §3 of the spec: a robot that is not moving is in the
stopped configuration. -/
def statusInvariant (s : RobotStatus) : Prop :=
  s.isMoving = false → s.currentDirection = "stop" ∧ s.currentSpeed = 0

/-- Modelled from the spec (for comparison with the code's `map`): the spec
says the duty cycle equals `round(speed * 255/100)`, rounding toward
nearest. -/
def specDuty (speed : Int) : Int :=
  round ((speed * 255 : ℚ) / 100)

/-! ### Helper lemmas -/

theorem durationToMillis_eq (q : ℚ) (n : ℕ) (h1 : (n : ℚ) ≤ q * 1000)
    (h2 : q * 1000 < n + 1) : durationToMillis q = n := by
  have hfl : ⌊q * 1000⌋ = (n : ℤ) := by
    rw [Int.floor_eq_iff]
    refine ⟨by exact_mod_cast h1, by push_cast; exact h2⟩
  simp [durationToMillis, hfl]

theorem durationToMillis_of_nonpos (q : ℚ) (h : q ≤ 0) : durationToMillis q = 0 := by
  have h1000 : q * 1000 ≤ 0 :=
    mul_nonpos_iff.mpr (Or.inr ⟨h, by norm_num⟩)
  have hf : ⌊q * 1000⌋ ≤ 0 := Int.floor_nonpos h1000
  simp [durationToMillis, Int.toNat_of_nonpos hf]

theorem durationToMillis_one : durationToMillis 1 = 1000 :=
  durationToMillis_eq 1 1000 (by norm_num) (by norm_num)

theorem durationToMillis_two : durationToMillis 2 = 2000 :=
  durationToMillis_eq 2 2000 (by norm_num) (by norm_num)

theorem durationToMillis_hundredth : durationToMillis (1/100) = 10 :=
  durationToMillis_eq (1/100) 10 (by norm_num) (by norm_num)

theorem durationToMillis_halfMs : durationToMillis (1/2000) = 0 :=
  durationToMillis_eq (1/2000) 0 (by norm_num) (by norm_num)

theorem checkRobotMovement_not_moving (now : Nat) (s : RobotStatus)
    (h : s.isMoving = false) : checkRobotMovement now s = (s, []) := by
  simp [checkRobotMovement, h]

theorem checkRobotMovement_zero_duration (now : Nat) (s : RobotStatus)
    (h : s.moveDuration = 0) : checkRobotMovement now s = (s, []) := by
  simp [checkRobotMovement, h]

theorem checkRobotMovement_before (now : Nat) (s : RobotStatus)
    (hlt : now - s.moveStartTime < s.moveDuration) :
    checkRobotMovement now s = (s, []) := by
  unfold checkRobotMovement
  split_ifs with h1 h2
  · omega
  · rfl
  · rfl

theorem checkRobotMovement_after (now : Nat) (s : RobotStatus)
    (hm : s.isMoving = true) (hd : 0 < s.moveDuration)
    (hge : s.moveDuration ≤ now - s.moveStartTime) :
    checkRobotMovement now s = stopRobot s := by
  simp [checkRobotMovement, hm, hd, hge]

theorem pollMany_fixed (s : RobotStatus)
    (h : ∀ t, checkRobotMovement t s = (s, [])) :
    ∀ times : List Nat, pollMany times s = s := by
  intro times
  induction times with
  | nil => rfl
  | cons t ts ih =>
    show pollMany ts (checkRobotMovement t s).1 = s
    rw [h t]
    exact ih

theorem executeRobotMove_nonstop (direction : String) (dur : ℚ) (speed : Int)
    (now : Nat) (s : RobotStatus) (h : direction ≠ "stop") :
    (executeRobotMove direction dur speed now s).1.isMoving = true ∧
    (executeRobotMove direction dur speed now s).1.moveDuration = durationToMillis dur ∧
    (executeRobotMove direction dur speed now s).1.moveStartTime = now := by
  unfold executeRobotMove
  split_ifs <;>
    simp_all [moveForward, moveBackward, turnLeft, turnRight, stopRobot]

theorem waitLoop_not_moving (fuel now : Nat) (s : RobotStatus)
    (h : s.isMoving = false) : waitLoop fuel now s = some (s, [], now) := by
  cases fuel <;> simp [waitLoop, h]

theorem waitLoop_diverges (s : RobotStatus) (hm : s.isMoving = true)
    (hd : s.moveDuration = 0) : ∀ fuel now, waitLoop fuel now s = none := by
  intro fuel
  induction fuel with
  | zero => intro now; simp [waitLoop, hm]
  | succ f ih =>
    intro now
    simp [waitLoop, hm, checkRobotMovement_zero_duration now s hd, ih]

/-! ### Claim theorems -/

/-- C10: `stopRobot` is idempotent: applying it to the state it just
produced yields the identical state (and the identical actuations). -/
theorem C10_stopRobot_idempotent (s : RobotStatus) :
    stopRobot ((stopRobot s).1) = stopRobot s := rfl

/-- C8: `executeRobotMove` called while `isMoving` is true unconditionally
overwrites the in-progress move: afterwards `moveStartTime` is the new
call's clock reading and `moveDuration` is recomputed from the new call's
duration, for every direction string. -/
theorem C8_execute_overwrites (s : RobotStatus) (h : s.isMoving = true)
    (direction : String) (dur : ℚ) (speed : Int) (now : Nat) :
    (executeRobotMove direction dur speed now s).1.moveStartTime = now ∧
    (executeRobotMove direction dur speed now s).1.moveDuration = durationToMillis dur := by
  unfold executeRobotMove
  split_ifs <;>
    simp [moveForward, moveBackward, turnLeft, turnRight, stopRobot]

/-- C8 witness: overwriting a concrete in-progress forward move. -/
theorem C8_execute_overwrites_witness :
    (executeRobotMove "backward" 2 80 999
      ⟨true, "forward", 50, 0, 5000⟩).1.moveStartTime = 999 ∧
    (executeRobotMove "backward" 2 80 999
      ⟨true, "forward", 50, 0, 5000⟩).1.moveDuration = durationToMillis 2 :=
  C8_execute_overwrites ⟨true, "forward", 50, 0, 5000⟩ rfl "backward" 2 80 999

/-- C2 (amended): a `"stop"` direction stops immediately (isMoving false,
direction stop, speed 0) and no later poll changes the state; but a
non-`"stop"` direction with `duration ≤ 0` arms no timer (`moveDuration = 0`)
and leaves the robot with `isMoving = true`, and no sequence of later polls
ever changes the state (so no auto-stop transition can occur and the robot
does not stop). -/
theorem C2_stop_vs_nonpositive_duration :
    (∀ (dur : ℚ) (speed : Int) (now : Nat) (s : RobotStatus),
      (executeRobotMove "stop" dur speed now s).1.isMoving = false ∧
      (executeRobotMove "stop" dur speed now s).1.currentDirection = "stop" ∧
      (executeRobotMove "stop" dur speed now s).1.currentSpeed = 0 ∧
      ∀ times : List Nat,
        pollMany times (executeRobotMove "stop" dur speed now s).1 =
          (executeRobotMove "stop" dur speed now s).1) ∧
    (∀ (direction : String) (dur : ℚ) (speed : Int) (now : Nat) (s : RobotStatus),
      direction ≠ "stop" → dur ≤ 0 →
      (executeRobotMove direction dur speed now s).1.isMoving = true ∧
      (executeRobotMove direction dur speed now s).1.moveDuration = 0 ∧
      ∀ times : List Nat,
        pollMany times (executeRobotMove direction dur speed now s).1 =
          (executeRobotMove direction dur speed now s).1) := by
  constructor
  · intro dur speed now s
    have hx : (executeRobotMove "stop" dur speed now s).1 =
        ⟨false, "stop", 0, now, durationToMillis dur⟩ := by
      simp [executeRobotMove, stopRobot]
    rw [hx]
    exact ⟨rfl, rfl, rfl,
      pollMany_fixed _ (fun t => checkRobotMovement_not_moving t _ rfl)⟩
  · intro direction dur speed now s hdir hdur
    obtain ⟨hm, hd, _⟩ := executeRobotMove_nonstop direction dur speed now s hdir
    have hd0 : (executeRobotMove direction dur speed now s).1.moveDuration = 0 := by
      rw [hd, durationToMillis_of_nonpos dur hdur]
    exact ⟨hm, hd0,
      pollMany_fixed _ (fun t => checkRobotMovement_zero_duration t _ hd0)⟩

/-- C2 counterexample: `executeRobotMove("forward", 0, 50)` has
`duration ≤ 0`, yet afterwards `isMoving` is `true`, not `false` as the
claim states. -/
theorem C2_counterexample :
    (0 : ℚ) ≤ 0 ∧
    (executeRobotMove "forward" 0 50 0 initialStatus).1.isMoving = true := by
  refine ⟨le_refl 0, ?_⟩
  simp [executeRobotMove, moveForward]

/-- C2 witness: a concrete left move with negative duration keeps moving and
polls at 7, 17 and 100000 ms change nothing. -/
theorem C2_witness :
    (executeRobotMove "left" (-2) 30 7 initialStatus).1.isMoving = true ∧
    pollMany [7, 17, 100000] (executeRobotMove "left" (-2) 30 7 initialStatus).1 =
      (executeRobotMove "left" (-2) 30 7 initialStatus).1 := by
  have h := C2_stop_vs_nonpositive_duration.2 "left" (-2) 30 7 initialStatus
    (by decide) (by norm_num)
  exact ⟨h.1, h.2.2 [7, 17, 100000]⟩

/-- C3 (amended): an unrecognized direction issues no actuation and leaves
`currentDirection`/`currentSpeed` unchanged, but it is not a full no-op on
MotionState: `isMoving` is set to `true` and `moveStartTime`/`moveDuration`
are overwritten. -/
theorem C3_unknown_direction (direction : String)
    (h : direction ∉ ["forward", "backward", "left", "right", "stop"])
    (dur : ℚ) (speed : Int) (now : Nat) (s : RobotStatus) :
    executeRobotMove direction dur speed now s =
      ({ s with isMoving := true, moveStartTime := now,
                moveDuration := durationToMillis dur }, []) := by
  simp only [List.mem_cons, List.not_mem_nil, or_false, not_or] at h
  obtain ⟨h1, h2, h3, h4, h5⟩ := h
  simp [executeRobotMove, h1, h2, h3, h4, h5]

/-- C3 counterexample: `executeRobotMove("diagonal", 1, 50)` issues no
actuation but mutates MotionState (`isMoving` flips to `true`), so the call
is not a no-op on MotionState as the claim states. -/
theorem C3_counterexample :
    (executeRobotMove "diagonal" 1 50 0 initialStatus).1.isMoving = true ∧
    (executeRobotMove "diagonal" 1 50 0 initialStatus).1 ≠ initialStatus ∧
    (executeRobotMove "diagonal" 1 50 0 initialStatus).2 = [] := by
  have hx : executeRobotMove "diagonal" 1 50 0 initialStatus =
      ({ initialStatus with isMoving := true, moveStartTime := 0,
                            moveDuration := durationToMillis 1 }, []) := by
    simp [executeRobotMove]
  rw [hx, durationToMillis_one]
  exact ⟨rfl, by decide, rfl⟩

/-- C3 witness: the unrecognized direction `"spin"`. -/
theorem C3_witness :
    executeRobotMove "spin" 3 10 42 initialStatus =
      ({ initialStatus with isMoving := true, moveStartTime := 42,
                            moveDuration := durationToMillis 3 }, []) :=
  C3_unknown_direction "spin" (by decide) 3 10 42 initialStatus

/-- C4: a sequence containing a step whose direction is not `"stop"` (a
moving or unrecognized direction) and whose duration is ≤ 0 makes the
sequence handler diverge: the busy-wait on `isMoving` never exits, for any
fuel bound, because the poll only stops a move when `moveDuration > 0`. -/
theorem C4_sequence_diverges (steps : List MotionStep)
    (h : ∃ st ∈ steps, st.direction ≠ "stop" ∧ st.duration ≤ 0) :
    ∀ (fuel : Nat) (speed : Int) (now : Nat) (s : RobotStatus),
      execSequence fuel speed steps now s = none := by
  revert h
  induction steps with
  | nil =>
    intro h
    obtain ⟨st, hmem, _⟩ := h
    exact absurd hmem (List.not_mem_nil st)
  | cons step rest ih =>
    intro h fuel speed now s
    obtain ⟨st, hmem, hst⟩ := h
    rcases List.mem_cons.mp hmem with heq | hmem2
    · have hbad : step.direction ≠ "stop" ∧ step.duration ≤ 0 := heq ▸ hst
      obtain ⟨hm, hd, _⟩ :=
        executeRobotMove_nonstop step.direction step.duration speed now s hbad.1
      have hd0 : (executeRobotMove step.direction step.duration speed now s).1.moveDuration = 0 := by
        rw [hd, durationToMillis_of_nonpos _ hbad.2]
      simp only [execSequence]
      rw [waitLoop_diverges _ hm hd0 fuel now]
    · simp only [execSequence]
      cases hw : waitLoop fuel now (executeRobotMove step.direction step.duration speed now s).1 with
      | none => rfl
      | some r =>
        obtain ⟨s2, a2, t2⟩ := r
        have hrest := ih ⟨st, hmem2, hst⟩ fuel speed (t2 + 100) s2
        simp [hrest]

/-- C4 witness: the one-step sequence `[("forward", 0)]` diverges at fuel 3. -/
theorem C4_witness :
    execSequence 3 50 [⟨"forward", 0⟩] 0 initialStatus = none :=
  C4_sequence_diverges [⟨"forward", 0⟩]
    ⟨⟨"forward", 0⟩, List.mem_singleton.mpr rfl, by decide, le_refl 0⟩
    3 50 0 initialStatus

/-- C5 (amended): after `executeRobotMove` with a recognized moving direction
and `duration > 0`, the armed deadline is `D = floor(duration*1000)` ms (the
float-seconds value is truncated to whole milliseconds). While
`now - startTime < D` a poll leaves the state unchanged (still moving, same
direction and speed); once `0 < D` and `D ≤ now - startTime` a poll stops the
robot (isMoving false, direction stop, speed 0). If `D = 0` — a positive
duration below one millisecond — no poll ever stops the move. -/
theorem C5_poll_deadline (direction : String) (duration : ℚ) (speed : Int)
    (t : Nat) (s : RobotStatus) (now : Nat)
    (hdir : direction = "forward" ∨ direction = "backward" ∨
      direction = "left" ∨ direction = "right")
    (hdur : 0 < duration) :
    (executeRobotMove direction duration speed t s).1 =
      ⟨true, direction, speed, t, durationToMillis duration⟩ ∧
    (now - t < durationToMillis duration →
      checkRobotMovement now (executeRobotMove direction duration speed t s).1 =
        ((executeRobotMove direction duration speed t s).1, [])) ∧
    (0 < durationToMillis duration → durationToMillis duration ≤ now - t →
      (checkRobotMovement now (executeRobotMove direction duration speed t s).1).1 =
        ⟨false, "stop", 0, t, durationToMillis duration⟩) ∧
    (durationToMillis duration = 0 →
      checkRobotMovement now (executeRobotMove direction duration speed t s).1 =
        ((executeRobotMove direction duration speed t s).1, [])) := by
  have hx : (executeRobotMove direction duration speed t s).1 =
      ⟨true, direction, speed, t, durationToMillis duration⟩ := by
    rcases hdir with h | h | h | h <;> subst h <;>
      simp [executeRobotMove, moveForward, moveBackward, turnLeft, turnRight]
  rw [hx]
  refine ⟨rfl, ?_, ?_, ?_⟩
  · intro hlt
    exact checkRobotMovement_before now _ hlt
  · intro hpos hge
    rw [checkRobotMovement_after now _ rfl hpos hge]
    rfl
  · intro h0
    exact checkRobotMovement_zero_duration now _ h0

/-- C5 counterexample: duration 1/2000 s is positive and the poll at
`now = 1` satisfies `now - startTime ≥ duration*1000 = 0.5`, yet the robot
keeps moving: the code truncated `duration*1000` to 0 ms, so the poll never
transitions to stopped (the claim says the first such poll stops it). -/
theorem C5_counterexample :
    0 < (1/2000 : ℚ) ∧ (1/2000 : ℚ) * 1000 ≤ ((1 - 0 : ℕ) : ℚ) ∧
    (checkRobotMovement 1
      (executeRobotMove "forward" (1/2000) 50 0 initialStatus).1).1.isMoving = true := by
  refine ⟨by norm_num, by norm_num, ?_⟩
  have hx : (executeRobotMove "forward" (1/2000) 50 0 initialStatus).1 =
      ⟨true, "forward", 50, 0, 0⟩ := by
    have hD : durationToMillis (2000⁻¹ : ℚ) = 0 :=
      durationToMillis_eq (2000⁻¹) 0 (by norm_num) (by norm_num)
    simp [executeRobotMove, moveForward, durationToMillis_halfMs, hD]
  rw [hx, checkRobotMovement_zero_duration 1 _ rfl]

/-- C5 witness: forward for 2 s at speed 50: the poll at 1000 ms leaves the
move untouched, and the poll at 2100 ms yields the stopped state. -/
theorem C5_witness :
    checkRobotMovement 1000 (executeRobotMove "forward" 2 50 0 initialStatus).1 =
      ((executeRobotMove "forward" 2 50 0 initialStatus).1, []) ∧
    (checkRobotMovement 2100 (executeRobotMove "forward" 2 50 0 initialStatus).1).1 =
      ⟨false, "stop", 0, 0, durationToMillis 2⟩ := by
  constructor
  · exact (C5_poll_deadline "forward" 2 50 0 initialStatus 1000 (Or.inl rfl)
      (by norm_num)).2.1 (by rw [durationToMillis_two]; decide)
  · exact (C5_poll_deadline "forward" 2 50 0 initialStatus 2100 (Or.inl rfl)
      (by norm_num)).2.2.1 (by rw [durationToMillis_two]; decide)
      (by rw [durationToMillis_two]; decide)

/-- C6 (amended): for speed in [0,100] the duty cycle computed by the move
operations is `map(speed,0,100,0,255) = speed*255/100` with truncating
integer division (floor, since the operands are non-negative) — not rounding
to nearest — and it lies in [0,255]; both PWM channels receive exactly this
value. -/
theorem C6_duty_cycle (speed : Int) (h0 : 0 ≤ speed) (h100 : speed ≤ 100) :
    map speed 0 100 0 255 = speed * 255 / 100 ∧
    0 ≤ map speed 0 100 0 255 ∧ map speed 0 100 0 255 ≤ 255 ∧
    ∀ s : RobotStatus, (moveForward speed s).2 =
      [Actuation.digitalWrite Pin.motorLeftForward true,
       Actuation.digitalWrite Pin.motorLeftBackward false,
       Actuation.digitalWrite Pin.motorRightForward true,
       Actuation.digitalWrite Pin.motorRightBackward false,
       Actuation.ledcWrite 0 (map speed 0 100 0 255),
       Actuation.ledcWrite 1 (map speed 0 100 0 255)] := by
  have hmap : map speed 0 100 0 255 = speed * 255 / 100 := by
    unfold map
    rw [Int.tdiv_eq_ediv (by nlinarith) (by norm_num)]
    ring_nf
  refine ⟨hmap, ?_, ?_, fun s => rfl⟩
  · rw [hmap]; omega
  · rw [hmap]; omega

/-- C6 counterexample: at speed 1 the code computes duty 2 (truncating
2.55), while the claimed `round(1 * 255/100)` is 3. -/
theorem C6_counterexample :
    (moveForward 1 initialStatus).2 =
      [Actuation.digitalWrite Pin.motorLeftForward true,
       Actuation.digitalWrite Pin.motorLeftBackward false,
       Actuation.digitalWrite Pin.motorRightForward true,
       Actuation.digitalWrite Pin.motorRightBackward false,
       Actuation.ledcWrite 0 2,
       Actuation.ledcWrite 1 2] ∧
    specDuty 1 = 3 ∧ (2 : Int) ≠ 3 := by
  refine ⟨by decide, ?_, by decide⟩
  unfold specDuty
  rw [show ((1 : ℤ) * 255 : ℚ) / 100 = 51/20 by norm_num, round_eq]
  rw [show (51/20 : ℚ) + 1/2 = 61/20 by norm_num]
  rw [Int.floor_eq_iff]
  norm_num

/-- C6 witness: speed 50 yields duty 127 = floor(127.5) on both channels. -/
theorem C6_witness :
    map 50 0 100 0 255 = 50 * 255 / 100 ∧
    0 ≤ map 50 0 100 0 255 ∧ map 50 0 100 0 255 ≤ 255 ∧
    (moveForward 50 initialStatus).2 =
      [Actuation.digitalWrite Pin.motorLeftForward true,
       Actuation.digitalWrite Pin.motorLeftBackward false,
       Actuation.digitalWrite Pin.motorRightForward true,
       Actuation.digitalWrite Pin.motorRightBackward false,
       Actuation.ledcWrite 0 (map 50 0 100 0 255),
       Actuation.ledcWrite 1 (map 50 0 100 0 255)] := by
  obtain ⟨h1, h2, h3, h4⟩ := C6_duty_cycle 50 (by norm_num) (by norm_num)
  exact ⟨h1, h2, h3, h4 initialStatus⟩

theorem statusInvariant_stopRobot (s : RobotStatus) :
    statusInvariant (stopRobot s).1 := by
  intro _
  exact ⟨rfl, rfl⟩

theorem statusInvariant_executeRobotMove (direction : String) (dur : ℚ)
    (speed : Int) (now : Nat) (s : RobotStatus) :
    statusInvariant (executeRobotMove direction dur speed now s).1 := by
  unfold executeRobotMove
  split_ifs <;>
    simp [statusInvariant, moveForward, moveBackward, turnLeft, turnRight,
      stopRobot]

theorem statusInvariant_checkRobotMovement (now : Nat) (s : RobotStatus)
    (h : statusInvariant s) : statusInvariant (checkRobotMovement now s).1 := by
  unfold checkRobotMovement
  split_ifs <;> first
    | exact statusInvariant_stopRobot s
    | exact h

theorem statusInvariant_waitLoop :
    ∀ (fuel now : Nat) (s : RobotStatus) (r : RobotStatus × List Actuation × Nat),
      statusInvariant s → waitLoop fuel now s = some r → statusInvariant r.1 := by
  intro fuel
  induction fuel with
  | zero =>
    intro now s r h hw
    rw [waitLoop] at hw
    by_cases hm : s.isMoving
    · rw [if_pos hm] at hw; exact absurd hw (by simp)
    · rw [if_neg hm] at hw
      obtain rfl := Option.some.inj hw
      exact h
  | succ f ih =>
    intro now s r h hw
    simp only [waitLoop] at hw
    by_cases hm : s.isMoving
    · rw [if_pos hm] at hw
      cases hw2 : waitLoop f (now + 10) (checkRobotMovement now s).1 with
      | none => rw [hw2] at hw; exact absurd hw (by simp)
      | some r2 =>
        rw [hw2] at hw
        obtain ⟨s2, a2, t2⟩ := r2
        have h2 := ih (now + 10) (checkRobotMovement now s).1 (s2, a2, t2)
          (statusInvariant_checkRobotMovement now s h) hw2
        obtain rfl := Option.some.inj hw
        exact h2
    · rw [if_neg hm] at hw
      obtain rfl := Option.some.inj hw
      exact h

theorem statusInvariant_execSequence :
    ∀ (steps : List MotionStep) (fuel : Nat) (speed : Int) (now : Nat)
      (s : RobotStatus) (r : RobotStatus × List Actuation × Nat),
      statusInvariant s → execSequence fuel speed steps now s = some r →
      statusInvariant r.1 := by
  intro steps
  induction steps with
  | nil =>
    intro fuel speed now s r h hx
    simp only [execSequence] at hx
    obtain rfl := Option.some.inj hx
    exact h
  | cons step rest ih =>
    intro fuel speed now s r h hx
    simp only [execSequence] at hx
    cases hw : waitLoop fuel now
        (executeRobotMove step.direction step.duration speed now s).1 with
    | none => rw [hw] at hx; exact absurd hx (by simp)
    | some r2 =>
      rw [hw] at hx
      obtain ⟨s2, a2, t2⟩ := r2
      have h2 := statusInvariant_waitLoop fuel now _ (s2, a2, t2)
        (statusInvariant_executeRobotMove step.direction step.duration speed now s) hw
      cases hr : execSequence fuel speed rest (t2 + 100) s2 with
      | none =>
        simp only [hr] at hx
        exact Option.noConfusion hx
      | some r3 =>
        obtain ⟨s3, a3, t3⟩ := r3
        have h3 := ih fuel speed (t2 + 100) s2 (s3, a3, t3) h2 hr
        simp only [hr] at hx
        obtain rfl := Option.some.inj hx
        exact h3

/-- C7: the invariant "isMoving = false implies direction = stop and
speed = 0" holds in the initial state, is (unconditionally) established by
`executeRobotMove` for any direction and by `stopRobot`, and is preserved by
the poll and by full command dispatch (whenever dispatch terminates with a
result). -/
theorem C7_invariant :
    statusInvariant initialStatus ∧
    (∀ (direction : String) (dur : ℚ) (speed : Int) (now : Nat) (s : RobotStatus),
      statusInvariant (executeRobotMove direction dur speed now s).1) ∧
    (∀ s : RobotStatus, statusInvariant (stopRobot s).1) ∧
    (∀ (now : Nat) (s : RobotStatus), statusInvariant s →
      statusInvariant (checkRobotMovement now s).1) ∧
    (∀ (fuel now : Nat) (adcValue : Int) (doc : JsonDoc) (s : RobotStatus)
      (r : RobotStatus × List Actuation × List StatusMsg),
      statusInvariant s → handleRobotControlMessage fuel now adcValue doc s = some r →
      statusInvariant r.1) := by
  refine ⟨fun _ => ⟨rfl, rfl⟩, statusInvariant_executeRobotMove,
    statusInvariant_stopRobot, statusInvariant_checkRobotMovement, ?_⟩
  intro fuel now adcValue doc s r h hx
  unfold handleRobotControlMessage at hx
  cases hc : doc.command with
  | none =>
    rw [hc] at hx
    obtain rfl := Option.some.inj hx
    exact h
  | some command =>
    rw [hc] at hx
    simp only at hx
    by_cases ha1 : asString command.action = "move"
    · rw [if_pos ha1] at hx
      obtain rfl := Option.some.inj hx
      exact statusInvariant_executeRobotMove _ _ _ _ _
    · rw [if_neg ha1] at hx
      by_cases ha2 : asString command.action = "sequence"
      · rw [if_pos ha2] at hx
        cases hs : execSequence fuel (command.speed.getD 0)
            ((command.sequence.getD []).map
              (fun st => MotionStep.mk (asString st.direction) (st.duration.getD 0)))
            now s with
        | none => rw [hs] at hx; exact absurd hx (by simp)
        | some r2 =>
          rw [hs] at hx
          obtain ⟨s2, a2, t2⟩ := r2
          have h2 := statusInvariant_execSequence _ fuel _ now s (s2, a2, t2) h hs
          obtain rfl := Option.some.inj hx
          exact h2
      · rw [if_neg ha2] at hx
        by_cases ha3 : asString command.action = "get_status"
        · rw [if_pos ha3] at hx
          obtain rfl := Option.some.inj hx
          exact h
        · rw [if_neg ha3] at hx
          obtain rfl := Option.some.inj hx
          exact h

/-- C7 witness: the poll at 5 ms preserves the invariant from the initial
state. -/
theorem C7_invariant_witness :
    statusInvariant ((checkRobotMovement 5 initialStatus).1) :=
  C7_invariant.2.2.2.1 5 initialStatus C7_invariant.1

/-- C9: an inbound command with no `command` key, or whose command object
has no `action` field, produces no state change, no actuation, and no
outbound reply. -/
theorem C9_malformed_rejected (fuel now : Nat) (adcValue : Int) (doc : JsonDoc)
    (s : RobotStatus)
    (h : doc.command = none ∨ ∃ c, doc.command = some c ∧ c.action = none) :
    handleRobotControlMessage fuel now adcValue doc s = some (s, [], []) := by
  rcases h with h | ⟨c, hc, ha⟩
  · simp [handleRobotControlMessage, h]
  · simp [handleRobotControlMessage, hc, ha, asString]

/-- C9 witness: a document with no command key, and one whose command object
has no action field (but otherwise well-formed move fields). -/
theorem C9_malformed_rejected_witness :
    handleRobotControlMessage 3 0 512 ⟨none⟩ initialStatus =
      some (initialStatus, [], []) ∧
    handleRobotControlMessage 3 0 512
      ⟨some ⟨none, some "forward", some 1, some 50, none⟩⟩ initialStatus =
      some (initialStatus, [], []) := by
  constructor
  · exact C9_malformed_rejected 3 0 512 ⟨none⟩ initialStatus (Or.inl rfl)
  · exact C9_malformed_rejected 3 0 512 _ initialStatus (Or.inr ⟨_, rfl, rfl⟩)

/-- C1 (amended): a `stop` step stops the robot immediately and its
busy-wait exits at once, but it does not short-circuit the sequence: the
remaining steps are still executed from the stopped state after the 100 ms
inter-step pause (and can still actuate the motors and mutate MotionState).
Only the steps are not discarded; the stop step itself behaves as an
immediate stop. -/
theorem C1_stop_step_not_short_circuit (fuel : Nat) (speed : Int) (d : ℚ)
    (rest : List MotionStep) (now : Nat) (s : RobotStatus) :
    execSequence fuel speed (⟨"stop", d⟩ :: rest) now s =
      (execSequence fuel speed rest (now + 100)
          ⟨false, "stop", 0, now, durationToMillis d⟩).map
        (fun r => (r.1, stopActs ++ r.2.1, r.2.2)) := by
  have hmove : executeRobotMove "stop" d speed now s =
      (⟨false, "stop", 0, now, durationToMillis d⟩, stopActs) := by
    simp [executeRobotMove, stopRobot]
  simp only [execSequence, hmove]
  rw [waitLoop_not_moving fuel now _ rfl]
  cases hrec : execSequence fuel speed rest (now + 100)
      ⟨false, "stop", 0, now, durationToMillis d⟩ with
  | none => simp [hrec]
  | some r =>
    obtain ⟨s3, a3, t3⟩ := r
    simp [hrec]

/-- C1 counterexample: in the sequence [stop 1 s, forward 0.01 s] the step
after the stop step still actuates the motors (forward pins high, duty 127)
and mutates MotionState (`moveStartTime` becomes 100, the auto-stop fires at
110): the stop step did not terminate the sequence. -/
theorem C1_counterexample :
    execSequence 5 50 [⟨"stop", 1⟩, ⟨"forward", 1/100⟩] 0 initialStatus =
      some (⟨false, "stop", 0, 100, 10⟩,
        stopActs ++
          ([Actuation.digitalWrite Pin.motorLeftForward true,
            Actuation.digitalWrite Pin.motorLeftBackward false,
            Actuation.digitalWrite Pin.motorRightForward true,
            Actuation.digitalWrite Pin.motorRightBackward false,
            Actuation.ledcWrite 0 127,
            Actuation.ledcWrite 1 127] ++ stopActs),
        220) := by
  have hD : durationToMillis (100⁻¹ : ℚ) = 10 :=
    durationToMillis_eq (100⁻¹) 10 (by norm_num) (by norm_num)
  have hm : map 50 0 100 0 255 = 127 := by decide
  have h1 : executeRobotMove "stop" 1 50 0 initialStatus =
      (⟨false, "stop", 0, 0, 1000⟩, stopActs) := by
    simp [executeRobotMove, stopRobot, durationToMillis_one, initialStatus]
  have h2 : executeRobotMove "forward" (100⁻¹ : ℚ) 50 100 ⟨false, "stop", 0, 0, 1000⟩ =
      (⟨true, "forward", 50, 100, 10⟩,
       [Actuation.digitalWrite Pin.motorLeftForward true,
        Actuation.digitalWrite Pin.motorLeftBackward false,
        Actuation.digitalWrite Pin.motorRightForward true,
        Actuation.digitalWrite Pin.motorRightBackward false,
        Actuation.ledcWrite 0 127,
        Actuation.ledcWrite 1 127]) := by
    simp [executeRobotMove, moveForward, durationToMillis_hundredth, hD, hm]
  have h3 : waitLoop 5 100 (⟨true, "forward", 50, 100, 10⟩ : RobotStatus) =
      some (⟨false, "stop", 0, 100, 10⟩, stopActs, 120) := by decide
  have hw1 : waitLoop 5 0 (⟨false, "stop", 0, 0, 1000⟩ : RobotStatus) =
      some (⟨false, "stop", 0, 0, 1000⟩, [], 0) := by decide
  simp only [execSequence]
  simp [h1, h2, h3, hw1]
